import Mathlib

/-!
Verification of the adaptive pattern scheduler of the `rlytype` repository.

The TypeScript sources are embedded shallowly:

* JavaScript `number`s are modelled as `ℚ` (exact rational arithmetic; all
  claims checked here are order/structure facts that do not hinge on binary
  floating-point rounding).
* `Math.round` rounds half toward positive infinity, i.e. `⌊q + 1/2⌋`.
* `Date.now()` is modelled as an explicit `now : ℚ` argument wherever the
  source reads the wall clock.
* JavaScript strings (words, pattern identifiers) are modelled as their
  character lists, `List Char`; `s.startsWith(t)` is `t.isPrefixOf s`.
* Record types keep the field names of `packages/types/src/index.ts`.

Source files embedded below:
* `packages/core/src/stats.ts`   (namespace `Stats`)
* `packages/core/src/progression.ts` (namespace `Progression`)
* the `progression` draft `src/unnamed/part_005`  (namespace `Part005`)
* `packages/core/src/patterns.ts` (`getFinger`)
* the engine draft `src/unnamed/part_006` (`TypingEngine.handleKey`,
  namespace `Engine`)
-/

/-- JavaScript `Math.round`: rounds half toward positive infinity. -/
def jsRound (q : ℚ) : ℤ := ⌊q + 1/2⌋

/-- Type `PatternStat` from `packages/types/src/index.ts`:
one statistical record per pattern id. -/
structure PatternStat where
  id : List Char
  n : ℚ
  ewmaLatency : ℚ
  ewmaVariance : ℚ
  errorAlpha : ℚ
  errorBeta : ℚ
  lastSeen : ℚ
  trend : ℚ
deriving DecidableEq, Repr

namespace Stats

/-- Constant `LOW_VAR_THRESHOLD` from `packages/core/src/stats.ts` (ms², std dev 20ms). -/
def LOW_VAR_THRESHOLD : ℚ := 400

/-- Function `isPatternMastered` from `packages/core/src/stats.ts` lines 5–21. -/
def isPatternMastered (p : PatternStat) (targetLatency : ℚ) : Bool :=
  let totalEvidence := p.errorAlpha + p.errorBeta
  let successRate := p.errorAlpha / totalEvidence
  decide (10 < totalEvidence) && decide (98/100 < successRate) &&
    decide (p.ewmaVariance < LOW_VAR_THRESHOLD) && decide (p.ewmaLatency ≤ targetLatency)

/-- Function `calculateMasteryScore` from `packages/core/src/stats.ts` lines 23–28. -/
def calculateMasteryScore (stat : PatternStat) (targetLatency : ℚ) : ℤ :=
  let totalSamples := stat.errorAlpha + stat.errorBeta
  let accuracy := if 0 < totalSamples then stat.errorAlpha / totalSamples else 1
  let speedFactor := min 1 (targetLatency / max 1 stat.ewmaLatency)
  jsRound (speedFactor * accuracy * 100)

/-- Constant `EWMA_ALPHA` from `packages/core/src/stats.ts`. -/
def EWMA_ALPHA : ℚ := 15/100

/-- Function `createInitialStat` from `packages/core/src/stats.ts` lines 32–43. -/
def createInitialStat (id : List Char) : PatternStat :=
  { id := id
    n := 0
    ewmaLatency := 300
    ewmaVariance := 1000
    errorAlpha := 1
    errorBeta := 1
    lastSeen := 0
    trend := 0 }

/-- Function `updatePatternStat` from `packages/core/src/stats.ts` lines 45–74.
The source reads `Date.now()` for the `lastSeen` field; that clock read is
modelled as the explicit argument `now`. -/
def updatePatternStat (stat : PatternStat) (latency : ℚ) (isErr : Bool) (now : ℚ) :
    PatternStat :=
  let base := { stat with n := stat.n + 1, lastSeen := now }
  if isErr then
    { base with errorBeta := base.errorBeta + 1 }
  else
    let delta := latency - base.ewmaLatency
    { base with
        errorAlpha := base.errorAlpha + 1
        ewmaLatency := base.ewmaLatency + EWMA_ALPHA * delta
        ewmaVariance := (1 - EWMA_ALPHA) * base.ewmaVariance + EWMA_ALPHA * (delta * delta)
        trend := (1 - EWMA_ALPHA) * base.trend + EWMA_ALPHA * delta }

/-- Written from the spec's words (§4.2): `masteryPercent` as a speed-only
measure, `round(min(1, target / max(1, ewmaLatency)) * 100)`, returning `0`
when `sampleCount == 0`.  Compared against `calculateMasteryScore`. -/
def masteryPercentSpec (stat : PatternStat) (targetLatency : ℚ) : ℤ :=
  if stat.n = 0 then 0
  else jsRound (min 1 (targetLatency / max 1 stat.ewmaLatency) * 100)

end Stats

/-- Type `Stage` from `packages/types/src/index.ts`. -/
inductive Stage where
  | unigram
  | bigram
  | trigram
deriving DecidableEq, Repr

namespace Progression

/-- Function `getPatternStage` from `packages/core/src/progression.ts` lines 3–8:
classification by identifier length only. -/
def getPatternStage (pattern : List Char) : Option Stage :=
  if pattern.length = 1 then some .unigram
  else if pattern.length = 2 then some .bigram
  else if pattern.length = 3 then some .trigram
  else none

/-- Function `calculateStageMastery` from `packages/core/src/progression.ts` lines
10–26 (its `attempts` field is the sample count, named `n` here, matching
`packages/types/src/index.ts`). -/
def calculateStageMastery (stats : List PatternStat) (stage : Stage)
    (targetLatency : ℚ) (totalPossiblePatterns : ℚ) : ℤ :=
  if totalPossiblePatterns = 0 then 0
  else
    let stageStats := stats.filter (fun s => decide (getPatternStage s.id = some stage))
    let masteredCount :=
      (stageStats.filter (fun s =>
        decide (3 ≤ s.n) && decide (s.ewmaLatency ≤ targetLatency))).length
    jsRound ((masteredCount / totalPossiblePatterns) * 100)

end Progression

/-- The characters of the tag `"same_finger:"` that marks the biomechanical
bigram variant. -/
def sameFingerTag : List Char :=
  ['s', 'a', 'm', 'e', '_', 'f', 'i', 'n', 'g', 'e', 'r', ':']

namespace Part005

/-- Function `getPatternStage` from the progression draft `src/unnamed/part_005`
lines 3–9: like `Progression.getPatternStage` but a `same_finger:` tagged
id is classified as a bigram. -/
def getPatternStage (id : List Char) : Option Stage :=
  if sameFingerTag.isPrefixOf id then some .bigram
  else if id.length = 1 then some .unigram
  else if id.length = 2 then some .bigram
  else if id.length = 3 then some .trigram
  else none

/-- Function `calculateStageMastery` from `src/unnamed/part_005` lines 11–25. -/
def calculateStageMastery (stats : List PatternStat) (stage : Stage)
    (targetLatency : ℚ) (totalPossiblePatterns : ℚ) : ℤ :=
  if totalPossiblePatterns = 0 then 0
  else
    let stageStats := stats.filter (fun s => decide (getPatternStage s.id = some stage))
    let masteredCount :=
      (stageStats.filter (fun s =>
        decide (3 ≤ s.n) && decide (s.ewmaLatency ≤ targetLatency))).length
    jsRound ((masteredCount / totalPossiblePatterns) * 100)

/-- The per-stage total pattern counts passed to `getUnlockStatus`. -/
structure StageCounts where
  unigram : ℚ
  bigram : ℚ
  trigram : ℚ
deriving DecidableEq, Repr

/-- Result type `Record<Stage, boolean>` returned by `getUnlockStatus`. -/
structure UnlockStatus where
  unigram : Bool
  bigram : Bool
  trigram : Bool
deriving DecidableEq, Repr

/-- Function `getUnlockStatus` from `src/unnamed/part_005` lines 27–40. -/
def getUnlockStatus (stats : List PatternStat) (targetLatency : ℚ)
    (counts : StageCounts) : UnlockStatus :=
  let unigramMastery := calculateStageMastery stats .unigram targetLatency counts.unigram
  let bigramMastery := calculateStageMastery stats .bigram targetLatency counts.bigram
  { unigram := true
    bigram := decide (85 ≤ unigramMastery)
    trigram := decide (85 ≤ unigramMastery) && decide (85 ≤ bigramMastery) }

end Part005

/-- Function `getFinger` from `packages/core/src/patterns.ts` lines 5–36:
the fixed QWERTY finger map, looked up on the lower-cased character. -/
def getFinger (c : Char) : Option Nat :=
  match c.toLower with
  | 'q' => some 0
  | 'a' => some 0
  | 'z' => some 0
  | 'w' => some 1
  | 's' => some 1
  | 'x' => some 1
  | 'e' => some 2
  | 'd' => some 2
  | 'c' => some 2
  | 'r' => some 3
  | 'f' => some 3
  | 'v' => some 3
  | 't' => some 3
  | 'g' => some 3
  | 'b' => some 3
  | 'y' => some 4
  | 'h' => some 4
  | 'n' => some 4
  | 'u' => some 4
  | 'j' => some 4
  | 'm' => some 4
  | 'i' => some 5
  | 'k' => some 5
  | 'o' => some 6
  | 'l' => some 6
  | 'p' => some 7
  | _ => none

/-- The same-finger test used by `TypingEngine.handleKey`
(`src/unnamed/part_006` lines 412–414 and 449–451):
both characters mapped, same finger, and not identical. -/
def sameFinger (a b : Char) : Bool :=
  match getFinger a, getFinger b with
  | some f1, some f2 => decide (f1 = f2) && decide (a ≠ b)
  | _, _ => false

namespace Engine

/-- Constant `BATCH_SIZE` from `packages/types/src/index.ts`. -/
def BATCH_SIZE : Nat := 10

/-- One call to `TypingEngine.updateStat(id, latency, isError)`: an
attribution event that is applied to the pattern-stat map via
`updatePatternStat`.  The claims below are about which events a keystroke
emits, so `handleKey` is embedded as returning the list of these events. -/
structure AttrEvent where
  id : List Char
  latency : ℚ
  isErr : Bool
deriving DecidableEq, Repr

/-- The `TypingEngine` fields read or written by `handleKey`
(`src/unnamed/part_006`): `state.words` (as character lists),
`state.activeWordIndex`, `state.activeCharIndex`, `state.typedSoFar`,
`state.isError`, `lastKeyTime`, `latencyInvalidated`, `globalAvgLatency`.
Display-only session statistics (wpm/accuracy counters, session timers) and
the word generator are out of the scheduler core's scope and are omitted;
they do not feed back into any field modelled here within one keystroke. -/
structure EngineState where
  words : List (List Char)
  activeWordIndex : Nat
  activeCharIndex : Nat
  typedSoFar : List Char
  isError : Bool
  lastKeyTime : ℚ
  latencyInvalidated : Bool
  globalAvgLatency : ℚ
deriving DecidableEq, Repr

/-- Method `TypingEngine.advanceWord` (`src/unnamed/part_006` lines 320–332),
restricted to the modelled fields: next word, cursor and buffer reset,
`lastKeyTime = now`.  (Word-buffer refill and the per-batch wpm display it
also triggers touch only omitted display fields.) -/
def advanceWord (e : EngineState) (now : ℚ) : EngineState :=
  { e with
      activeWordIndex := e.activeWordIndex + 1
      activeCharIndex := 0
      typedSoFar := []
      lastKeyTime := now }

/-- Method `TypingEngine.handleKey` (`src/unnamed/part_006` lines 334–460),
with `Date.now()` as the explicit argument `now`.  Returns the new engine
state and the attribution events emitted (`updateStat` calls, in source
order).  List indexing uses a default `' '` where the source indexes a
string; every claim below constrains the indices to the in-range cases the
source reaches. -/
def handleKey (e : EngineState) (key : Char) (now : ℚ) :
    EngineState × List AttrEvent :=
  let targetWord := e.words.getD e.activeWordIndex []
  let wordFinished := e.activeCharIndex = targetWord.length
  if wordFinished then
    if key = ' ' then
      (advanceWord { e with isError := false } now, [])
    else
      ({ e with isError := true }, [])
  else if key = ' ' ∧ e.activeCharIndex = 0 then
    (e, [])
  else
    let targetChar := targetWord.getD e.activeCharIndex ' '
    if key = targetChar then
      let delta := now - e.lastKeyTime
      let prevChar := targetWord.getD (e.activeCharIndex - 1) ' '
      let emit := 0 < e.activeCharIndex ∧ delta < 2000 ∧ e.latencyInvalidated = false
      let events :=
        if emit then
          [⟨[prevChar, key], delta, false⟩, ⟨[key], delta, false⟩]
            ++ (if 1 < e.activeCharIndex then
                  [⟨[targetWord.getD (e.activeCharIndex - 2) ' ', prevChar, key],
                    delta, false⟩]
                else [])
            ++ (if sameFinger prevChar key then
                  [⟨sameFingerTag ++ [prevChar, key], delta, false⟩]
                else [])
        else []
      let e2 :=
        { e with
            isError := false
            globalAvgLatency :=
              if emit then (5/1000) * delta + (1 - 5/1000) * e.globalAvgLatency
              else e.globalAvgLatency
            typedSoFar := e.typedSoFar ++ [key]
            activeCharIndex := e.activeCharIndex + 1
            lastKeyTime := now
            latencyInvalidated := false }
      if e2.activeCharIndex = targetWord.length ∧ (e.activeWordIndex + 1) % BATCH_SIZE = 0 then
        (advanceWord e2 now, events)
      else
        (e2, events)
    else
      let prevChar := targetWord.getD (e.activeCharIndex - 1) ' '
      let events :=
        if 0 < e.activeCharIndex then
          [⟨[prevChar, targetChar], 0, true⟩, ⟨[targetChar], 0, true⟩]
            ++ (if sameFinger prevChar targetChar then
                  [⟨sameFingerTag ++ [prevChar, targetChar], 0, true⟩]
                else [])
        else []
      ({ e with isError := true, latencyInvalidated := true }, events)

end Engine

/-- Written from the amended reading of C1: `calculateMasteryScore` is the
speed factor times the prior-smoothed accuracy, rounded. -/
def masteryPercentAmended (stat : PatternStat) (targetLatency : ℚ) : ℤ :=
  let speed := min 1 (targetLatency / max 1 stat.ewmaLatency)
  let total := stat.errorAlpha + stat.errorBeta
  let accuracy := if 0 < total then stat.errorAlpha / total else 1
  jsRound (100 * (accuracy * speed))

/-- A record with three recorded failures (`errorBeta = 3`) and fast latency:
separates the accuracy-weighted score from a speed-only score. -/
def c1Stat : PatternStat :=
  { id := ['a'], n := 4, ewmaLatency := 100, ewmaVariance := 1000
    errorAlpha := 1, errorBeta := 3, lastSeen := 0, trend := 0 }

/-- A record with `sampleCount = 0` but large pseudo-count evidence. -/
def c2Stat : PatternStat :=
  { id := ['a'], n := 0, ewmaLatency := 100, ewmaVariance := 0
    errorAlpha := 100, errorBeta := 1, lastSeen := 0, trend := 0 }

/-- Applies `k` successive correct (non-error) observations of one constant latency,
each applied through `updatePatternStat`. -/
def iterCorrect (stat : PatternStat) (latency now : ℚ) : Nat → PatternStat
  | 0 => stat
  | k + 1 => Stats.updatePatternStat (iterCorrect stat latency now k) latency false now

/-- Session state used in the C6 counterexample: the 10th word of a batch
(`ab`), one character already accepted, with a pending invalidation from an
earlier mismatch. -/
def c6State : Engine.EngineState :=
  { words := List.replicate 10 ['a', 'b'], activeWordIndex := 9, activeCharIndex := 1
    typedSoFar := ['a'], isError := false, lastKeyTime := 0
    latencyInvalidated := true, globalAvgLatency := 300 }

/-- Session state used in the C6 witness: word `the`, first character
accepted at time 0, next key due. -/
def c6WitState : Engine.EngineState :=
  { words := [['t', 'h', 'e']], activeWordIndex := 0, activeCharIndex := 1
    typedSoFar := ['t'], isError := false, lastKeyTime := 0
    latencyInvalidated := false, globalAvgLatency := 300 }

/-- Session state used in the C7 counterexample: fresh word `ha`, cursor at
its first character. -/
def c7State : Engine.EngineState :=
  { words := [['h', 'a']], activeWordIndex := 0, activeCharIndex := 0
    typedSoFar := [], isError := false, lastKeyTime := 0
    latencyInvalidated := false, globalAvgLatency := 300 }

/-- Session state used in the C7 witness: word `ed`, first character
accepted; `e` and `d` are typed with the same finger. -/
def c7WitState : Engine.EngineState :=
  { words := [['e', 'd']], activeWordIndex := 0, activeCharIndex := 1
    typedSoFar := ['e'], isError := false, lastKeyTime := 0
    latencyInvalidated := false, globalAvgLatency := 300 }

/-- Session state used in the C10 witness: fresh word `ha`, nothing typed. -/
def c10State : Engine.EngineState :=
  { words := [['h', 'a']], activeWordIndex := 0, activeCharIndex := 0
    typedSoFar := [], isError := true, lastKeyTime := 3
    latencyInvalidated := true, globalAvgLatency := 300 }

namespace Engine

/-- The word currently being typed:
`this.state.words[this.state.activeWordIndex]`. -/
def targetWordOf (e : EngineState) : List Char := e.words.getD e.activeWordIndex []

/-- The character the cursor expects:
`targetWord[this.state.activeCharIndex]`. -/
def expectedCharOf (e : EngineState) : Char := (targetWordOf e).getD e.activeCharIndex ' '

/-- The previously accepted character:
`targetWord[this.state.activeCharIndex - 1]`. -/
def prevCharOf (e : EngineState) : Char := (targetWordOf e).getD (e.activeCharIndex - 1) ' '

/-- The condition under which a correct keystroke emits latency attribution:
not the first character, inter-keystroke latency under 2000ms, no pending
invalidation. -/
def emitCond (e : EngineState) (now : ℚ) : Prop :=
  0 < e.activeCharIndex ∧ now - e.lastKeyTime < 2000 ∧ e.latencyInvalidated = false

/-- The auto-advance condition of `handleKey`: the keystroke completes the
last word of a `BATCH_SIZE` batch. -/
def autoAdvanceCond (e : EngineState) : Prop :=
  e.activeCharIndex + 1 = (targetWordOf e).length ∧ (e.activeWordIndex + 1) % BATCH_SIZE = 0

end Engine

/-- C1 (counterexample): `calculateMasteryScore` is not the speed-only
measure `round(min(1, target / max(1, ewma)) * 100)`: a fast record with
recorded failures scores 25 where the speed-only formula gives 100, and a
fresh record with `sampleCount = 0` (prior 1,1) scores 33, not 0. -/
theorem claim_C1_counterexample :
    Stats.calculateMasteryScore c1Stat 200 = 25 ∧
    Stats.masteryPercentSpec c1Stat 200 = 100 ∧
    Stats.calculateMasteryScore c1Stat 200 ≠ Stats.masteryPercentSpec c1Stat 200 ∧
    Stats.calculateMasteryScore (Stats.createInitialStat ['b']) 200 = 33 ∧
    (Stats.createInitialStat ['b']).n = 0 := by
  have h1 : Stats.calculateMasteryScore c1Stat 200 = 25 := by
    simp only [Stats.calculateMasteryScore, c1Stat, jsRound, min_def, max_def]
    norm_num
  have h2 : Stats.masteryPercentSpec c1Stat 200 = 100 := by
    simp only [Stats.masteryPercentSpec, c1Stat, jsRound, min_def, max_def]
    norm_num
  have h3 : Stats.calculateMasteryScore (Stats.createInitialStat ['b']) 200 = 33 := by
    simp only [Stats.calculateMasteryScore, Stats.createInitialStat, jsRound, min_def, max_def]
    norm_num
  refine ⟨h1, h2, ?_, h3, rfl⟩
  rw [h1, h2]
  norm_num

/-- C1 (amended): `calculateMasteryScore` equals the rounded product of the
speed factor `min(1, target / max(1, ewmaLatency))` with the accuracy
`errorAlpha / (errorAlpha + errorBeta)` (1 when the pseudo-counts sum to 0),
times 100; it is not gated on `sampleCount` and depends on the
success/failure pseudo-counts. -/
theorem claim_C1_amended (stat : PatternStat) (targetLatency : ℚ) :
    Stats.calculateMasteryScore stat targetLatency =
      masteryPercentAmended stat targetLatency := by
  simp only [Stats.calculateMasteryScore, masteryPercentAmended, jsRound]
  congr 1
  ring

/-- C2 (counterexample): a record with `sampleCount = 0` but
`errorAlpha + errorBeta = 101` is reported mastered, so `sampleCount <= 10`
does not force `isPatternMastered` to be false. -/
theorem claim_C2_counterexample :
    c2Stat.n ≤ 10 ∧ Stats.isPatternMastered c2Stat 200 = true := by
  constructor
  · norm_num [c2Stat]
  · simp only [Stats.isPatternMastered, c2Stat, Stats.LOW_VAR_THRESHOLD]
    norm_num

/-- C2 (amended): `isPatternMastered` is false whenever the total Beta
pseudo-count evidence `errorAlpha + errorBeta` is at most 10, regardless of
every other field; the gate is on this pseudo-count total, not on
`sampleCount`. -/
theorem claim_C2_amended (p : PatternStat) (targetLatency : ℚ)
    (h : p.errorAlpha + p.errorBeta ≤ 10) :
    Stats.isPatternMastered p targetLatency = false := by
  simp only [Stats.isPatternMastered]
  rw [decide_eq_false (not_lt.mpr h)]
  simp

/-- C2 witness: the freshly created record has pseudo-count total 2 and is
not mastered. -/
theorem claim_C2_witness :
    (Stats.createInitialStat ['c']).errorAlpha + (Stats.createInitialStat ['c']).errorBeta ≤ 10 ∧
    Stats.isPatternMastered (Stats.createInitialStat ['c']) 200 = false :=
  ⟨by norm_num [Stats.createInitialStat],
   claim_C2_amended (Stats.createInitialStat ['c']) 200 (by norm_num [Stats.createInitialStat])⟩

/-- C4 (counterexample): an error observation does not change only
`sampleCount` and `failureCount` — it also overwrites `lastSeen` with the
current wall-clock time. -/
theorem claim_C4_counterexample :
    (Stats.updatePatternStat (Stats.createInitialStat ['a']) 0 true 5).lastSeen ≠
      (Stats.createInitialStat ['a']).lastSeen := by
  have h1 : (Stats.updatePatternStat (Stats.createInitialStat ['a']) 0 true 5).lastSeen = 5 := rfl
  have h2 : (Stats.createInitialStat ['a']).lastSeen = 0 := rfl
  rw [h1, h2]
  norm_num

/-- C4 (amended): an error observation increments `sampleCount` and
`failureCount` by one, sets `lastSeen` to the current time, and leaves
`ewmaLatency`, `ewmaVariance`, `trend`, `errorAlpha` and `id` unchanged. -/
theorem claim_C4_amended (stat : PatternStat) (latency now : ℚ) :
    Stats.updatePatternStat stat latency true now =
      { stat with n := stat.n + 1, errorBeta := stat.errorBeta + 1, lastSeen := now } :=
  rfl

/-- C5 (counterexample): `updatePatternStat` reads the wall clock
(`Date.now()`, modelled as the `now` argument), so two invocations with
identical record and observation arguments at different times return
different records. -/
theorem claim_C5_counterexample :
    Stats.updatePatternStat (Stats.createInitialStat ['a']) 100 false 1 ≠
      Stats.updatePatternStat (Stats.createInitialStat ['a']) 100 false 2 := by
  intro h
  have h2 : (1:ℚ) = 2 := congrArg PatternStat.lastSeen h
  norm_num at h2

/-- C5 (amended): `updatePatternStat` is pure given the record, the latency,
the error flag and the clock reading: every field except `lastSeen` is
independent of the clock, and `lastSeen` is exactly the clock value. -/
theorem claim_C5_amended (stat : PatternStat) (latency : ℚ) (isErr : Bool)
    (now1 now2 : ℚ) :
    (Stats.updatePatternStat stat latency isErr now1).lastSeen = now1 ∧
    Stats.updatePatternStat stat latency isErr now2 =
      { Stats.updatePatternStat stat latency isErr now1 with lastSeen := now2 } := by
  cases isErr <;> exact ⟨rfl, rfl⟩

/-- Closed form of the EWMA error after `k` constant-latency correct
observations: the gap to the observed latency shrinks by the factor
`1 - EWMA_ALPHA = 17/20` each step. -/
theorem iterCorrect_ewma_sub (stat : PatternStat) (latency now : ℚ) (k : Nat) :
    (iterCorrect stat latency now k).ewmaLatency - latency
      = (17/20) ^ k * (stat.ewmaLatency - latency) := by
  induction k with
  | zero => simp [iterCorrect]
  | succ k ih =>
      have h : (iterCorrect stat latency now (k + 1)).ewmaLatency
          = (iterCorrect stat latency now k).ewmaLatency
            + (15/100) * (latency - (iterCorrect stat latency now k).ewmaLatency) := rfl
      rw [h, pow_succ]
      linear_combination (17/20 : ℚ) * ih

/-- C3: starting from any record whose `ewmaLatency` differs from the
constant observed latency `L` (`0 ≤ L < 2000`, measured past the first
character), every correct observation moves `ewmaLatency` to
`old + 0.15 * (L - old)`, the absolute gap `|ewmaLatency - L|` shrinks by
exactly the factor `0.85` — hence strictly decreases — and the sequence
approaches `L` monotonically from its starting side without crossing it. -/
theorem claim_C3 (stat : PatternStat) (latency now : ℚ)
    (hL0 : 0 ≤ latency) (hL2 : latency < 2000)
    (hne : stat.ewmaLatency ≠ latency) (k : Nat) :
    (iterCorrect stat latency now (k + 1)).ewmaLatency
        = (iterCorrect stat latency now k).ewmaLatency
          + (15/100) * (latency - (iterCorrect stat latency now k).ewmaLatency)
    ∧ |(iterCorrect stat latency now (k + 1)).ewmaLatency - latency|
        = (17/20) * |(iterCorrect stat latency now k).ewmaLatency - latency|
    ∧ |(iterCorrect stat latency now (k + 1)).ewmaLatency - latency|
        < |(iterCorrect stat latency now k).ewmaLatency - latency|
    ∧ (stat.ewmaLatency < latency →
        (iterCorrect stat latency now k).ewmaLatency
            < (iterCorrect stat latency now (k + 1)).ewmaLatency
        ∧ (iterCorrect stat latency now (k + 1)).ewmaLatency < latency)
    ∧ (latency < stat.ewmaLatency →
        (iterCorrect stat latency now (k + 1)).ewmaLatency
            < (iterCorrect stat latency now k).ewmaLatency
        ∧ latency < (iterCorrect stat latency now (k + 1)).ewmaLatency) := by
  have hc : (0:ℚ) < (17/20) ^ k := pow_pos (by norm_num) k
  have hd0 : stat.ewmaLatency - latency ≠ 0 := sub_ne_zero.mpr hne
  have h1 := iterCorrect_ewma_sub stat latency now k
  have h2 : (iterCorrect stat latency now (k + 1)).ewmaLatency - latency
      = (17/20) * ((iterCorrect stat latency now k).ewmaLatency - latency) := by
    rw [iterCorrect_ewma_sub stat latency now (k + 1), h1, pow_succ]
    ring
  have hx_ne : (iterCorrect stat latency now k).ewmaLatency - latency ≠ 0 := by
    rw [h1]
    exact mul_ne_zero (ne_of_gt hc) hd0
  have habs : |(iterCorrect stat latency now (k + 1)).ewmaLatency - latency|
      = (17/20) * |(iterCorrect stat latency now k).ewmaLatency - latency| := by
    rw [h2, abs_mul]
    norm_num
  refine ⟨rfl, habs, ?_, ?_, ?_⟩
  · have hpos : 0 < |(iterCorrect stat latency now k).ewmaLatency - latency| :=
      abs_pos.mpr hx_ne
    rw [habs]
    linarith
  · intro hlt
    have hdneg : stat.ewmaLatency - latency < 0 := sub_neg.mpr hlt
    have hxneg : (iterCorrect stat latency now k).ewmaLatency - latency < 0 := by
      rw [h1]
      exact mul_neg_of_pos_of_neg hc hdneg
    constructor <;> linarith [h2]
  · intro hlt
    have hdpos : 0 < stat.ewmaLatency - latency := sub_pos.mpr hlt
    have hxpos : 0 < (iterCorrect stat latency now k).ewmaLatency - latency := by
      rw [h1]
      exact mul_pos hc hdpos
    constructor <;> linarith [h2]

/-- C3 witness: the initial record (EWMA 300) observed at constant latency
100 satisfies the hypotheses, and the first update strictly shrinks the gap. -/
theorem claim_C3_witness :
    (0:ℚ) ≤ 100 ∧ (100:ℚ) < 2000 ∧ (Stats.createInitialStat ['w']).ewmaLatency ≠ 100 ∧
    |(iterCorrect (Stats.createInitialStat ['w']) 100 0 1).ewmaLatency - 100|
      < |(iterCorrect (Stats.createInitialStat ['w']) 100 0 0).ewmaLatency - 100| :=
  ⟨by norm_num, by norm_num, by norm_num [Stats.createInitialStat],
   (claim_C3 (Stats.createInitialStat ['w']) 100 0 (by norm_num) (by norm_num)
      (by norm_num [Stats.createInitialStat]) 0).2.2.1⟩

/-- Helper: `isPrefixOf` only succeeds on a list that is at least as long. -/
theorem length_le_of_isPrefixOf (l1 : List Char) :
    ∀ l2 : List Char, l1.isPrefixOf l2 = true → l1.length ≤ l2.length := by
  induction l1 with
  | nil => intro l2 _; simp
  | cons a as ih =>
      intro l2 h
      cases l2 with
      | nil => simp [List.isPrefixOf] at h
      | cons b bs =>
          simp only [List.isPrefixOf, Bool.and_eq_true] at h
          have := ih bs h.2
          simp only [List.length_cons]
          omega

/-- Helper: every list `isPrefixOf` itself followed by anything. -/
theorem isPrefixOf_self_append (l t : List Char) : l.isPrefixOf (l ++ t) = true := by
  induction l with
  | nil => simp
  | cons a as ih => simp [ih]

/-- Helper: the 12-character `same_finger:` tag never passes `isPrefixOf`
against a shorter identifier. -/
theorem sameFingerTag_not_prefixOf_short (l : List Char) (h : l.length < 12) :
    sameFingerTag.isPrefixOf l = false := by
  rw [Bool.eq_false_iff]
  intro hp
  have hle := length_le_of_isPrefixOf sameFingerTag l hp
  rw [show sameFingerTag.length = 12 from rfl] at hle
  omega

/-- C8: pattern identifiers are classified by shape — one symbol to unigram,
two to bigram, three to trigram, and a `same_finger:xy` variant to bigram.
The `part_005` iteration implements exactly this; the core
`packages/core/src/progression.ts` iteration, which classifies by length
alone, instead returns no stage at all for a `same_finger:` id (the failing
input `same_finger:ed`), silently dropping such patterns from stage mastery
and sequential selection. -/
theorem claim_C8 :
    Progression.getPatternStage (sameFingerTag ++ ['e', 'd']) = none
    ∧ (∀ a b : Char, Part005.getPatternStage (sameFingerTag ++ [a, b]) = some Stage.bigram)
    ∧ (∀ c : Char, Progression.getPatternStage [c] = some Stage.unigram
        ∧ Part005.getPatternStage [c] = some Stage.unigram)
    ∧ (∀ a b : Char, Progression.getPatternStage [a, b] = some Stage.bigram
        ∧ Part005.getPatternStage [a, b] = some Stage.bigram)
    ∧ (∀ a b c : Char, Progression.getPatternStage [a, b, c] = some Stage.trigram
        ∧ Part005.getPatternStage [a, b, c] = some Stage.trigram) := by
  refine ⟨by decide, fun a b => ?_, fun c => ⟨by simp [Progression.getPatternStage], ?_⟩,
    fun a b => ⟨by simp [Progression.getPatternStage], ?_⟩,
    fun a b c => ⟨by simp [Progression.getPatternStage], ?_⟩⟩
  · have hp : sameFingerTag.isPrefixOf (sameFingerTag ++ [a, b]) = true :=
      isPrefixOf_self_append sameFingerTag [a, b]
    simp [Part005.getPatternStage, hp]
  · simp [Part005.getPatternStage, sameFingerTag_not_prefixOf_short [c] (by simp)]
  · simp [Part005.getPatternStage, sameFingerTag_not_prefixOf_short [a, b] (by simp)]
  · simp [Part005.getPatternStage, sameFingerTag_not_prefixOf_short [a, b, c] (by simp)]

/-- C9: `getUnlockStatus` always unlocks unigram, unlocks bigram exactly when
unigram stage mastery is at least 85, unlocks trigram exactly when both the
unigram and bigram stage masteries are at least 85; and `calculateStageMastery`
is the count of the stage's records with `sampleCount >= 3` and
`ewmaLatency <= targetLatency`, divided by the stage's total pattern count,
times 100, rounded to the nearest integer. -/
theorem claim_C9 (stats : List PatternStat) (targetLatency : ℚ)
    (counts : Part005.StageCounts) :
    (Part005.getUnlockStatus stats targetLatency counts).unigram = true
    ∧ ((Part005.getUnlockStatus stats targetLatency counts).bigram = true ↔
        85 ≤ Part005.calculateStageMastery stats .unigram targetLatency counts.unigram)
    ∧ ((Part005.getUnlockStatus stats targetLatency counts).trigram = true ↔
        (85 ≤ Part005.calculateStageMastery stats .unigram targetLatency counts.unigram
        ∧ 85 ≤ Part005.calculateStageMastery stats .bigram targetLatency counts.bigram))
    ∧ (∀ (stage : Stage) (total : ℚ),
        Part005.calculateStageMastery stats stage targetLatency total =
          jsRound ((((((stats.filter (fun s =>
              decide (Part005.getPatternStage s.id = some stage))).filter
              (fun s => decide (3 ≤ s.n) && decide (s.ewmaLatency ≤ targetLatency))).length :
            ℚ)) / total) * 100)) := by
  refine ⟨rfl, ?_, ?_, ?_⟩
  · simp [Part005.getUnlockStatus]
  · simp [Part005.getUnlockStatus]
  · intro stage total
    by_cases h : total = 0
    · subst h
      simp [Part005.calculateStageMastery, jsRound]
      norm_num
    · simp [Part005.calculateStageMastery, h]

/-- C10: when the active word is unfinished and the cursor is at its first
character, a space keystroke is ignored entirely — `handleKey` returns the
state unchanged and emits no attribution events. -/
theorem claim_C10 (e : Engine.EngineState) (now : ℚ)
    (hidx : e.activeCharIndex = 0)
    (hlen : (Engine.targetWordOf e).length ≠ 0) :
    Engine.handleKey e ' ' now = (e, []) := by
  simp only [Engine.targetWordOf] at hlen
  have h1 : ¬ (e.activeCharIndex = (e.words.getD e.activeWordIndex []).length) := by
    rw [hidx]
    exact fun h => hlen h.symm
  simp only [Engine.handleKey, if_neg h1]
  simp [hidx]

/-- C10 witness: a leading space on the fresh word `ha` leaves the session
state untouched and emits nothing. -/
theorem claim_C10_witness :
    c10State.activeCharIndex = 0 ∧ (Engine.targetWordOf c10State).length ≠ 0 ∧
    Engine.handleKey c10State ' ' 7 = (c10State, []) :=
  ⟨rfl, by decide, claim_C10 c10State 7 rfl (by decide)⟩

/-- C7 (counterexample): a mismatched keystroke (`x` against expected `h`)
at the first character of a word sets the error flag but emits no
error-attribution events at all — in particular not the unigram event for
the expected character that the claim requires unconditionally. -/
theorem claim_C7_counterexample :
    (Engine.handleKey c7State 'x' 5).2 = [] ∧
    (Engine.handleKey c7State 'x' 5).1.isError = true ∧
    (Engine.handleKey c7State 'x' 5).1.latencyInvalidated = true ∧
    (Engine.handleKey c7State 'x' 5).1.activeCharIndex = 0 :=
  ⟨rfl, rfl, rfl, rfl⟩

/-- C7 (amended): on a mismatched keystroke against an unfinished word
(other than a leading space, which is ignored), the error flag and the
invalidation flag are set and nothing else in the state changes — in
particular the cursor does not advance; error-attribution events are
emitted only when `activeCharIndex > 0`, namely the bigram
`(prevChar, expected)`, the unigram of the expected character, and the
same-finger variant when applicable; at `activeCharIndex = 0` no events
are emitted. -/
theorem claim_C7_amended (e : Engine.EngineState) (key : Char) (now : ℚ)
    (hidx : e.activeCharIndex < (Engine.targetWordOf e).length)
    (hne : key ≠ Engine.expectedCharOf e)
    (hsp : ¬ (key = ' ' ∧ e.activeCharIndex = 0)) :
    (Engine.handleKey e key now).1
        = { e with isError := true, latencyInvalidated := true }
    ∧ (0 < e.activeCharIndex →
        (Engine.handleKey e key now).2 =
          [⟨[Engine.prevCharOf e, Engine.expectedCharOf e], 0, true⟩,
           ⟨[Engine.expectedCharOf e], 0, true⟩]
          ++ (if sameFinger (Engine.prevCharOf e) (Engine.expectedCharOf e) then
                [⟨sameFingerTag ++ [Engine.prevCharOf e, Engine.expectedCharOf e], 0, true⟩]
              else []))
    ∧ (e.activeCharIndex = 0 → (Engine.handleKey e key now).2 = []) := by
  simp only [Engine.targetWordOf, Engine.expectedCharOf, Engine.prevCharOf] at hidx hne ⊢
  have h1 : ¬ (e.activeCharIndex = (e.words.getD e.activeWordIndex []).length) :=
    Nat.ne_of_lt hidx
  simp only [Engine.handleKey, if_neg h1, if_neg hsp, if_neg hne]
  refine ⟨by trivial, fun h => ?_, fun h => ?_⟩
  · simp only [if_pos h]
  · simp [h]

/-- C7 witness: against the word `ed` with the first character accepted,
pressing `x` sets both flags and leaves the rest of the state unchanged. -/
theorem claim_C7_witness :
    c7WitState.activeCharIndex < (Engine.targetWordOf c7WitState).length ∧
    'x' ≠ Engine.expectedCharOf c7WitState ∧
    ¬ ('x' = ' ' ∧ c7WitState.activeCharIndex = 0) ∧
    (Engine.handleKey c7WitState 'x' 9).1 =
      { c7WitState with isError := true, latencyInvalidated := true } :=
  ⟨by decide, by decide, by decide,
   (claim_C7_amended c7WitState 'x' 9 (by decide) (by decide) (by decide)).1⟩

/-- C6 (counterexample): a correct keystroke that completes the last word of
a 10-word batch while an invalidation is pending emits no latency
attribution (as the claim says), but the engine auto-advances to the next
word, so the typed buffer does not end with the key appended — it is reset —
contradicting the claim's description of the resulting state. -/
theorem claim_C6_counterexample :
    (Engine.handleKey c6State 'b' 100).2 = [] ∧
    (Engine.handleKey c6State 'b' 100).1.typedSoFar ≠ c6State.typedSoFar ++ ['b'] ∧
    (Engine.handleKey c6State 'b' 100).1.activeCharIndex = 0 ∧
    (Engine.handleKey c6State 'b' 100).1.activeWordIndex = c6State.activeWordIndex + 1 := by
  have h1 : (c6State.words.getD c6State.activeWordIndex []) = ['a', 'b'] := by decide
  have hmain : Engine.handleKey c6State 'b' 100 =
      ({ words := List.replicate 10 ['a', 'b'], activeWordIndex := 10, activeCharIndex := 0
         typedSoFar := [], isError := false, lastKeyTime := 100
         latencyInvalidated := false, globalAvgLatency := 300 }, []) := by
    simp only [Engine.handleKey, h1]
    norm_num [c6State, Engine.advanceWord, Engine.BATCH_SIZE]
  rw [hmain]
  refine ⟨rfl, ?_, rfl, rfl⟩
  simp [c6State]

/-- C6 (amended): on a correct keystroke against an unfinished word (other
than a leading space), the latency attribution events — bigram, unigram,
trigram when `activeCharIndex > 1`, and the same-finger variant when
applicable, all carrying `now - lastKeyTime` — are emitted exactly when
`activeCharIndex > 0`, the latency is under 2000ms and no invalidation is
pending; otherwise nothing is emitted.  In both cases the last-accepted
timestamp becomes `now`, the error flag and the invalidation flag are
cleared; the cursor advances and the key is appended to the typed buffer,
except when the keystroke completes the last word of a 10-word batch, in
which case the engine immediately advances to the next word, resetting the
cursor and clearing the buffer. -/
theorem claim_C6_amended (e : Engine.EngineState) (key : Char) (now : ℚ)
    (hidx : e.activeCharIndex < (Engine.targetWordOf e).length)
    (hkey : key = Engine.expectedCharOf e)
    (hsp : ¬ (key = ' ' ∧ e.activeCharIndex = 0)) :
    (Engine.emitCond e now →
      (Engine.handleKey e key now).2 =
        [⟨[Engine.prevCharOf e, key], now - e.lastKeyTime, false⟩,
         ⟨[key], now - e.lastKeyTime, false⟩]
        ++ (if 1 < e.activeCharIndex then
              [⟨[(Engine.targetWordOf e).getD (e.activeCharIndex - 2) ' ',
                 Engine.prevCharOf e, key], now - e.lastKeyTime, false⟩]
            else [])
        ++ (if sameFinger (Engine.prevCharOf e) key then
              [⟨sameFingerTag ++ [Engine.prevCharOf e, key], now - e.lastKeyTime, false⟩]
            else []))
    ∧ (¬ Engine.emitCond e now → (Engine.handleKey e key now).2 = [])
    ∧ (Engine.handleKey e key now).1.lastKeyTime = now
    ∧ (Engine.handleKey e key now).1.isError = false
    ∧ (Engine.handleKey e key now).1.latencyInvalidated = false
    ∧ (¬ Engine.autoAdvanceCond e →
        (Engine.handleKey e key now).1.activeCharIndex = e.activeCharIndex + 1
        ∧ (Engine.handleKey e key now).1.typedSoFar = e.typedSoFar ++ [key]
        ∧ (Engine.handleKey e key now).1.activeWordIndex = e.activeWordIndex)
    ∧ (Engine.autoAdvanceCond e →
        (Engine.handleKey e key now).1.activeWordIndex = e.activeWordIndex + 1
        ∧ (Engine.handleKey e key now).1.activeCharIndex = 0
        ∧ (Engine.handleKey e key now).1.typedSoFar = []) := by
  simp only [Engine.targetWordOf, Engine.expectedCharOf, Engine.prevCharOf,
    Engine.emitCond, Engine.autoAdvanceCond] at hidx hkey hsp ⊢
  have h1 : ¬ (e.activeCharIndex = (e.words.getD e.activeWordIndex []).length) :=
    Nat.ne_of_lt hidx
  simp only [Engine.handleKey, if_neg h1, if_neg hsp, if_pos hkey]
  by_cases hA : e.activeCharIndex + 1 = (e.words.getD e.activeWordIndex []).length ∧
      (e.activeWordIndex + 1) % Engine.BATCH_SIZE = 0
  · simp only [if_pos hA, Engine.advanceWord]
    refine ⟨fun h => ?_, fun h => ?_, by trivial, by trivial, by trivial,
      fun h => absurd hA h, fun h => ⟨by trivial, by trivial, by trivial⟩⟩
    · simp only [if_pos h]
    · simp only [if_neg h]
  · simp only [if_neg hA]
    refine ⟨fun h => ?_, fun h => ?_, by trivial, by trivial, by trivial,
      fun h => ⟨by trivial, by trivial, by trivial⟩, fun h => absurd h hA⟩
    · simp only [if_pos h]
    · simp only [if_neg h]

/-- C6 witness: against the word `the` with `t` accepted at time 0, pressing
`h` at time 150 updates the last-accepted timestamp. -/
theorem claim_C6_witness :
    c6WitState.activeCharIndex < (Engine.targetWordOf c6WitState).length ∧
    'h' = Engine.expectedCharOf c6WitState ∧
    ¬ ('h' = ' ' ∧ c6WitState.activeCharIndex = 0) ∧
    (Engine.handleKey c6WitState 'h' 150).1.lastKeyTime = 150 :=
  ⟨by decide, by decide, by decide,
   (claim_C6_amended c6WitState 'h' 150 (by decide) (by decide) (by decide)).2.2.1⟩
